import Mathlib

/-!
Verification development for the GoogleAIModeVSChatGPT evaluation tool.

The repository persists three JSON datasets (query definitions, results,
progress), drives a retrying ChatGPT client with batch rate limiting,
selects stratified manual-scoring samples, and runs paired statistical
tests.  The definitions below are a shallow embedding of the relevant
Python functions; theorems about the frozen claims follow the definitions.

Modelling conventions:
* JSON dictionaries with string keys become `Dict` (ordered association
  lists, Python dict semantics: assignment keeps the position of an
  existing key and appends a new one).
* The two JSON stores become total maps `Nat -> Option entry`; a missing
  file is `none` (`load_results` / `load_progress` return `{}` then).
* Wall-clock timestamps are threaded as plain strings.
* File-system effects are recorded as an explicit event trace
  (`FsEvent.backup` / `FsEvent.write`), mirroring `backup_file` calls and
  `json.dump` writes in `data_manager.py`.
* Python floats are modelled exactly where the claims need them: `PyFloat`
  carries NaN, signed infinity and exact rationals; `sqrt` and the
  t-distribution p-value are parameters constrained by the IEEE facts the
  claims depend on (`sqrt 0 = 0`, a NaN statistic has a NaN p-value).
-/

namespace GAMvsGPT

/-! ## JSON values and dictionaries -/

/-- A JSON scalar stored in a response or score dictionary. -/
inductive Val where
  | num (q : ℚ)
  | bool (b : Bool)
  | str (s : String)
deriving DecidableEq

/-- An ordered string-keyed dictionary, as Python `dict` (insertion order). -/
abbrev Dict := List (String × Val)

/-- Membership test `k in d` for a Python dict. -/
def Dict.hasKey (d : Dict) (k : String) : Bool :=
  d.any (fun kv => kv.1 = k)

/-- Python `d[k] = v`: replace in place if the key exists, append otherwise. -/
def Dict.setKey (d : Dict) (k : String) (v : Val) : Dict :=
  if d.hasKey k then d.map (fun kv => if kv.1 = k then (k, v) else kv)
  else d ++ [(k, v)]

/-! ## data_manager.py : stores and entries -/

/-- The two response platforms accepted by `save_result`. -/
inductive Platform where
  | chatgpt
  | google
deriving DecidableEq

/-- The other platform. -/
def Platform.other : Platform → Platform
  | .chatgpt => .google
  | .google => .chatgpt

/-- One entry of `results.json` (`save_result` initialises `chatgpt`,
`google` and `scores` to `None`; `llm_scores` is only ever added by the
LLM-judge script, so a fresh entry lacks it). -/
structure REntry where
  query_id : ℕ
  chatgpt : Option Dict := none
  google : Option Dict := none
  scores : Option Dict := none
  llm_scores : Option Dict := none
deriving DecidableEq

/-- Read the response stored for a platform. -/
def REntry.getPlat (e : REntry) : Platform → Option Dict
  | .chatgpt => e.chatgpt
  | .google => e.google

/-- `results[str(query_id)][platform] = response_data`. -/
def REntry.setPlat (e : REntry) (p : Platform) (d : Dict) : REntry :=
  match p with
  | .chatgpt => { e with chatgpt := some d }
  | .google => { e with google := some d }

/-- One entry of `progress.json`. -/
structure PEntry where
  chatgpt_done : Bool := false
  google_done : Bool := false
  scored : Bool := false
  last_updated : Option String := none
deriving DecidableEq

/-- The three status fields `update_progress` can set. -/
inductive PField where
  | chatgptDoneF
  | googleDoneF
  | scoredF
deriving DecidableEq

/-- `progress[str(query_id)][status_field] = True`. -/
def PEntry.setField (e : PEntry) : PField → PEntry
  | .chatgptDoneF => { e with chatgpt_done := true }
  | .googleDoneF => { e with google_done := true }
  | .scoredF => { e with scored := true }

/-- The status field `f'{platform}_done'` used by `save_result`. -/
def Platform.doneField : Platform → PField
  | .chatgpt => .chatgptDoneF
  | .google => .googleDoneF

/-- The files `data_manager.py` touches. -/
inductive FileId where
  | resultsF
  | progressF
deriving DecidableEq

/-- A file-system effect: `backup_file(path)` or a `json.dump` overwrite. -/
inductive FsEvent where
  | backup (f : FileId)
  | write (f : FileId)
deriving DecidableEq

/-- Persistent state: the two JSON files, `none` while a file does not
exist yet. -/
structure DMState where
  resultsFile : Option (ℕ → Option REntry) := none
  progressFile : Option (ℕ → Option PEntry) := none

/-- Initial state: neither `results.json` nor `progress.json` exists. -/
def dmInit : DMState := {}

/-- `load_results`: empty dict when the file does not exist. -/
def loadResults (s : DMState) : ℕ → Option REntry :=
  s.resultsFile.getD (fun _ => none)

/-- `load_progress`: empty dict when the file does not exist. -/
def loadProgress (s : DMState) : ℕ → Option PEntry :=
  s.progressFile.getD (fun _ => none)

/-- `update_progress(query_id, status_field)` (data_manager.py lines
182-217): initialise an all-`False` entry when absent, set the field and
`last_updated`, then overwrite `progress.json` with no backup. -/
def updateProgress (now : String) (qid : ℕ) (fld : PField) (s : DMState) :
    DMState × Bool × List FsEvent :=
  let progress := loadProgress s
  let e := (progress qid).getD {}
  let e := e.setField fld
  let e := { e with last_updated := some now }
  ({ s with progressFile := some (fun n => if n = qid then some e else progress n) },
    true, [FsEvent.write .progressF])

/-- `save_result(query_id, platform, response_data)` (data_manager.py lines
90-137): initialise the entry when absent, add a timestamp to the response
data when absent, store the response, back up `results.json` when it
exists, write it, then update progress. -/
def saveResult (now : String) (qid : ℕ) (p : Platform) (rd : Dict) (s : DMState) :
    DMState × Bool × List FsEvent :=
  let results := loadResults s
  let entry := (results qid).getD { query_id := qid }
  let rd := if rd.hasKey "timestamp" then rd else rd.setKey "timestamp" (Val.str now)
  let entry := entry.setPlat p rd
  let backupEvs := if s.resultsFile.isSome then [FsEvent.backup .resultsF] else []
  let s1 : DMState :=
    { s with resultsFile := some (fun n => if n = qid then some entry else results n) }
  let up := updateProgress now qid p.doneField s1
  (up.1, true, backupEvs ++ [FsEvent.write .resultsF] ++ up.2.2)

/-- `save_scores(query_id, scores)` (data_manager.py lines 140-179): fail
without writing when the query has no results entry; otherwise stamp the
scores, store them, back up `results.json` when it exists, write it, then
update progress with `'scored'`. -/
def saveScores (now : String) (qid : ℕ) (sc : Dict) (s : DMState) :
    DMState × Bool × List FsEvent :=
  let results := loadResults s
  match results qid with
  | none => (s, false, [])
  | some entry =>
    let sc := sc.setKey "timestamp" (Val.str now)
    let entry := { entry with scores := some sc }
    let backupEvs := if s.resultsFile.isSome then [FsEvent.backup .resultsF] else []
    let s1 : DMState :=
      { s with resultsFile := some (fun n => if n = qid then some entry else results n) }
    let up := updateProgress now qid .scoredF s1
    (up.1, true, backupEvs ++ [FsEvent.write .resultsF] ++ up.2.2)

/-- A persistence operation for the progress-invariant claim. -/
inductive DMOp where
  | saveRes (now : String) (qid : ℕ) (p : Platform) (rd : Dict)
  | saveSc (now : String) (qid : ℕ) (sc : Dict)

/-- Apply one operation (discarding the success flag and event trace). -/
def applyOp (s : DMState) : DMOp → DMState
  | .saveRes now qid p rd => (saveResult now qid p rd s).1
  | .saveSc now qid sc => (saveScores now qid sc s).1

/-- Run a sequence of persistence operations. -/
def runOps (s : DMState) : List DMOp → DMState
  | [] => s
  | op :: ops => runOps (applyOp s op) ops

/-! ## data_manager.py : query records and `get_queries_needing_scores` -/

/-- A query record from `query_dataset.json`. -/
structure Query where
  id : ℕ
  query : String
  category : String
  quality : String
  intent_clarity : String
deriving DecidableEq

/-- A query as returned by `get_queries_needing_scores`, with the response
fields it attaches when the query has a results entry. -/
structure ScQuery where
  base : Query
  chatgpt_response : Option Dict := none
  google_response : Option Dict := none
deriving DecidableEq

/-- `get_queries_needing_scores()` (data_manager.py lines 284-307): keep
the queries whose progress entry has `chatgpt_done` and `google_done` set
and `scored` unset (an absent entry reads as all-`False`), attaching the
stored responses when a results entry exists. -/
def getQueriesNeedingScores (queries : List Query) (s : DMState) : List ScQuery :=
  let progress := loadProgress s
  let results := loadResults s
  (queries.filter (fun q =>
      match progress q.id with
      | none => false
      | some pe => pe.chatgpt_done && pe.google_done && !pe.scored)).map
    (fun q =>
      match results q.id with
      | none => { base := q }
      | some e => { base := q, chatgpt_response := e.chatgpt, google_response := e.google })

/-- The LLM-judge write path (run_llm_judge.py lines 120-150): a
successful evaluation stores the score dictionary under the `llm_scores`
key of the results entry and rewrites `results.json`; `progress.json` is
never touched by this script. -/
def llmJudgeSaveScores (qid : ℕ) (llmSc : Dict) (s : DMState) : DMState :=
  let results := loadResults s
  match results qid with
  | none => s
  | some entry =>
    let entry := { entry with llm_scores := some llmSc }
    { s with resultsFile := some (fun n => if n = qid then some entry else results n) }

/-! ## app.py : the `/api/save-scores` endpoint -/

/-- The JSON body of a `/api/save-scores` request; `none` marks an absent
key (`data.get(...)` returns `None`). -/
structure SaveScoresReq where
  query_id : Option ℕ
  scores : Option Dict

/-- The `required_fields` list validated by the endpoint (app.py lines
338-342). -/
def requiredScoreFields : List String :=
  ["chatgpt_relevance", "chatgpt_completeness", "chatgpt_source_quality",
   "google_relevance", "google_completeness", "google_source_quality",
   "chatgpt_intent_understood", "google_intent_understood"]

/-- A JSON API response together with its HTTP status code. -/
structure ApiResponse where
  success : Bool
  error : Option String := none
  message : Option String := none
  status : ℕ := 200
deriving DecidableEq

/-- The `save_scores` Flask handler (app.py lines 322-363): reject with
400 when `query_id` is absent, when `scores` is absent or falsy, or when a
required score field is missing — in each case before touching the store —
and otherwise delegate to `data_manager.save_scores`. -/
def appSaveScores (now : String) (req : SaveScoresReq) (s : DMState) :
    ApiResponse × DMState :=
  match req.query_id, req.scores with
  | none, _ =>
    ({ success := false, error := some "Missing required fields", status := 400 }, s)
  | some _, none =>
    ({ success := false, error := some "Missing required fields", status := 400 }, s)
  | some qid, some sc =>
    if sc.isEmpty then
      ({ success := false, error := some "Missing required fields", status := 400 }, s)
    else
      match requiredScoreFields.find? (fun f => !sc.hasKey f) with
      | some f =>
        ({ success := false, error := some ("Missing score field: " ++ f), status := 400 }, s)
      | none =>
        let res := saveScores now qid sc s
        ({ success := res.2.1, message := some "Scores saved" }, res.1)

/-! ## chatgpt_client.py : retry loop and batch processing -/

/-- The outcome of one call to `query_chatgpt`: a response, `None` (the
method catches every exception internally and returns `None`, lines
124-126), or — for faithfulness to `query_with_retry`'s `except` clause —
an exception escaping the call. -/
inductive CallOutcome (R : Type) where
  | ok (r : R)
  | failNone
  | raised (msg : String)

/-- The attempt loop of `query_with_retry` (chatgpt_client.py lines
144-159): `remaining` attempts are left, `attempt` is the current
zero-based index.  Returns the result, the backoff sleeps performed (a
sleep of `retry_delay * 2 ^ attempt` happens only in the `except` branch
and only when another attempt remains), and the number of calls made. -/
def retryFrom (f : ℕ → CallOutcome R) (maxAttempts : ℕ) (retryDelay : ℚ) :
    ℕ → ℕ → Option R × List ℚ × ℕ
  | _, 0 => (none, [], 0)
  | attempt, rem + 1 =>
    match f attempt with
    | .ok r => (some r, [], 1)
    | .failNone =>
      let t := retryFrom f maxAttempts retryDelay (attempt + 1) rem
      (t.1, t.2.1, t.2.2 + 1)
    | .raised _ =>
      let pre := if attempt < maxAttempts - 1 then [retryDelay * 2 ^ attempt] else []
      let t := retryFrom f maxAttempts retryDelay (attempt + 1) rem
      (t.1, pre ++ t.2.1, t.2.2 + 1)

/-- `query_with_retry(query_text, max_attempts)` (chatgpt_client.py lines
128-162), abstracted over the per-attempt outcome of `query_chatgpt`. -/
def queryWithRetry (f : ℕ → CallOutcome R) (maxAttempts : ℕ) (retryDelay : ℚ) :
    Option R × List ℚ × ℕ :=
  retryFrom f maxAttempts retryDelay 0 maxAttempts

/-- A batch item: `query.get('id')` and `query.get('query')`. -/
structure BQuery where
  id : ℕ
  query : Option String
deriving DecidableEq

/-- Python truthiness of the query text: `if not query_text` skips the
item for `None` and for the empty string. -/
def falsyText : Option String → Bool
  | none => true
  | some t => t = ""

/-- One element of the list `batch_query` returns (the response payload is
dropped; only identity and success are claimed about). -/
structure BRecord where
  query_id : ℕ
  success : Bool
deriving DecidableEq

/-- An observable step of `batch_query`: a completed `query_with_retry`
call for an item (with its success), or the `time.sleep(rate_limit_delay)`
between items. -/
inductive BatchEvent where
  | call (qid : ℕ) (success : Bool)
  | sleepRL (d : ℚ)
deriving DecidableEq

/-- The loop of `batch_query` (chatgpt_client.py lines 181-216): `idx`
enumerates all items, `total` is the full batch size; items with falsy
query text are skipped (`continue`, before the sleep); every processed
item is recorded, successful or not, and `time.sleep(rate_limit_delay)`
runs whenever `idx < total - 1`. -/
def batchGo (respond : ℕ → ℕ → CallOutcome R) (maxAttempts : ℕ)
    (retryDelay rateDelay : ℚ) (total : ℕ) :
    List BQuery → ℕ → List BRecord × List BatchEvent
  | [], _ => ([], [])
  | q :: rest, idx =>
    if falsyText q.query then
      batchGo respond maxAttempts retryDelay rateDelay total rest (idx + 1)
    else
      let res := (queryWithRetry (respond idx) maxAttempts retryDelay).1
      let sleepEvs := if idx < total - 1 then [BatchEvent.sleepRL rateDelay] else []
      let t := batchGo respond maxAttempts retryDelay rateDelay total rest (idx + 1)
      (⟨q.id, res.isSome⟩ :: t.1, (BatchEvent.call q.id res.isSome :: sleepEvs) ++ t.2)

/-- `batch_query(queries)` (chatgpt_client.py lines 164-221), abstracted
over the outcome `respond idx attempt` of attempt `attempt` of item
`idx`. -/
def batchQuery (respond : ℕ → ℕ → CallOutcome R) (maxAttempts : ℕ)
    (retryDelay rateDelay : ℚ) (queries : List BQuery) :
    List BRecord × List BatchEvent :=
  batchGo respond maxAttempts retryDelay rateDelay queries.length queries 0

/-! ## sampling.py : stratified sample selection -/

/-- Worker for `dedupFirst`: keep elements not seen before, tracking the
seen ones. -/
def dedupFirstAux [DecidableEq α] (seen : List α) : List α → List α
  | [] => []
  | a :: l =>
    if a ∈ seen then dedupFirstAux seen l
    else a :: dedupFirstAux (a :: seen) l

/-- Keep the first occurrence of each element, preserving order: the key
order of a Python dict built by repeated insertion (`by_category` etc. in
`select_stratified_sample`). -/
def dedupFirst [DecidableEq α] (l : List α) : List α :=
  dedupFirstAux [] l

/-- The ids of the selected queries, standing in for the Python set
`selected_ids` (which always equals `{q['id'] for q in selected}`). -/
def idsOf (l : List Query) : List ℕ := l.map Query.id

/-- The predicate `q['id'] not in selected_ids`. -/
def notSel (sel : List Query) (q : Query) : Bool := decide (q.id ∉ idsOf sel)

/-- An abstract stand-in for `random.sample(pop, n)`, fixed by the random
seed: any function drawing `n` elements of the population without
replacement. -/
abbrev Sampler := List Query → ℕ → List Query

/-- The contract of `random.sample`: when `n ≤ len(pop)` it returns `n`
elements forming a permutation of a sublist of the population. -/
def SamplerOK (samp : Sampler) : Prop :=
  ∀ pop n, n ≤ pop.length → (samp pop n).length = n ∧ List.Subperm (samp pop n) pop

/-- One concrete sampler satisfying the contract (used to instantiate
counterexamples and witnesses). -/
def takeSampler : Sampler := fun pop n => pop.take n

/-- `by_category[c]` filtered by `q['id'] not in selected_ids`
(sampling.py line 65). -/
def catAvail (queries sel : List Query) (c : String) : List Query :=
  (queries.filter (fun q => decide (q.category = c))).filter (notSel sel)

/-- One iteration of the per-category loop (sampling.py lines 64-69):
sample `min(samples_per_category, len(available))` from the category's
unselected queries and append. -/
def catStep (samp : Sampler) (spc : ℕ) (queries : List Query)
    (sel : List Query) (c : String) : List Query :=
  let avail := catAvail queries sel c
  sel ++ samp avail (min spc avail.length)

/-- The whole per-category loop, over the categories in first-appearance
order. -/
def stage1 (samp : Sampler) (spc : ℕ) (queries : List Query)
    (cats : List String) : List Query :=
  cats.foldl (catStep samp spc queries) []

/-- The priority list before deduplication (sampling.py lines 76-84):
poorly-formed and ambiguous queries, then low and very-low intent queries,
each filtered against the selected ids. -/
def priorityRaw (queries sel : List Query) : List Query :=
  (queries.filter (fun q => decide (q.quality = "Poorly-formed")) ++
      queries.filter (fun q => decide (q.quality = "Ambiguous"))).filter (notSel sel) ++
    (queries.filter (fun q => decide (q.intent_clarity = "Low")) ++
      queries.filter (fun q => decide (q.intent_clarity = "Very Low"))).filter (notSel sel)

/-- `list({q['id']: q for q in l}.values())` (sampling.py line 87): keys in
first-occurrence order, each mapped to the last record carrying that
id. -/
def dedupById (l : List Query) : List Query :=
  (dedupFirst (l.map Query.id)).filterMap
    (fun i => (l.filter (fun q => decide (q.id = i))).getLast?)

/-- The priority fill (sampling.py lines 74-94).  The source keeps a
running `remaining = sample_size - len(selected)` counter; it is passed in
here and returned updated (`remaining -= n`).  The Python counter can go
negative while this model truncates at 0, but both are only read through
`remaining > 0` guards, where they agree. -/
def stage2 (samp : Sampler) (queries : List Query) (sel : List Query)
    (remaining : ℕ) : List Query × ℕ :=
  if 0 < remaining then
    let pg := dedupById (priorityRaw queries sel)
    if pg.isEmpty then (sel, remaining)
    else
      let n := min remaining pg.length
      (sel ++ samp pg n, remaining - n)
  else (sel, remaining)

/-- The final random fill (sampling.py lines 97-102). -/
def stage3 (samp : Sampler) (queries : List Query) (sel : List Query)
    (remaining : ℕ) : List Query :=
  if 0 < remaining then
    let avail := queries.filter (notSel sel)
    if avail.isEmpty then sel
    else sel ++ samp avail (min remaining avail.length)
  else sel

/-- The selection pipeline of `select_stratified_sample` once the
category keys exist: per-category sampling with
`max(1, sample_size // len(categories))` slots each, priority fill,
random fill, and the final stable sort by id (sampling.py lines 56-107). -/
def selectPipeline (samp : Sampler) (queries : List Query) (sampleSize : ℕ)
    (cats : List String) : List Query :=
  let spc := max 1 (sampleSize / cats.length)
  let sel₁ := stage1 samp spc queries cats
  let s2 := stage2 samp queries sel₁ (sampleSize - sel₁.length)
  let sel₃ := stage3 samp queries s2.1 s2.2
  sel₃.insertionSort (fun a b => a.id ≤ b.id)

/-- `select_stratified_sample(queries, sample_size)` (sampling.py lines
10-107).  With no queries there are no categories and the Python code
raises `ZeroDivisionError` at `sample_size // len(categories)`, modelled
as `none`. -/
def selectStratifiedSample (samp : Sampler) (queries : List Query)
    (sampleSize : ℕ) : Option (List Query) :=
  let cats := dedupFirst (queries.map Query.category)
  if cats.isEmpty then none
  else some (selectPipeline samp queries sampleSize cats)

/-! ## analyzer.py : paired t-test and effect size -/

/-- A Python float as far as the statistics code observes it: NaN, signed
infinity, or an exact value. -/
inductive PyFloat where
  | nan
  | inf (neg : Bool)
  | val (q : ℚ)
deriving DecidableEq

/-- IEEE division of two finite values: `0/0` is NaN, `x/0` is a signed
infinity, otherwise exact. -/
def PyFloat.divQ (x y : ℚ) : PyFloat :=
  if y = 0 then (if x = 0 then .nan else .inf (x < 0)) else .val (x / y)

/-- IEEE `<`: any comparison with NaN is false. -/
def PyFloat.lt : PyFloat → PyFloat → Bool
  | .nan, _ => false
  | _, .nan => false
  | .inf n, .inf m => n && !m
  | .inf n, .val _ => n
  | .val _, .inf m => !m
  | .val a, .val b => decide (a < b)

/-- `abs` on a Python float. -/
def PyFloat.fabs : PyFloat → PyFloat
  | .nan => .nan
  | .inf _ => .inf false
  | .val q => .val |q|

/-- Round an exact value to the nearest integer, ties to even (Python
float rounding). -/
def roundHalfEvenZ (q : ℚ) : ℤ :=
  if q - ⌊q⌋ = 1 / 2 then (if 2 ∣ ⌊q⌋ then ⌊q⌋ else ⌊q⌋ + 1) else round q

/-- Python `round(q, k)`. -/
def roundQ (k : ℕ) (q : ℚ) : ℚ :=
  (roundHalfEvenZ (q * 10 ^ k) : ℚ) / 10 ^ k

/-- `round(x, k)` on a Python float: NaN and infinities pass through. -/
def PyFloat.roundTo (k : ℕ) : PyFloat → PyFloat
  | .nan => .nan
  | .inf n => .inf n
  | .val q => .val (roundQ k q)

/-- The mean of a series. -/
def meanQ (l : List ℚ) : ℚ := l.sum / l.length

/-- The sample variance with `ddof = 1` (`pandas` `Series.std` squared,
and the variance inside `scipy.stats.ttest_rel`). -/
def varQ (l : List ℚ) : ℚ :=
  (l.map (fun x => (x - meanQ l) ^ 2)).sum / ((l.length : ℚ) - 1)

/-- The paired rows left after `dropna` (analyzer.py line 151). -/
def pairedRows (rows : List (Option ℚ × Option ℚ)) : List (ℚ × ℚ) :=
  rows.filterMap (fun r =>
    match r.1, r.2 with
    | some a, some b => some (a, b)
    | _, _ => none)

/-- The result dictionary of `paired_t_test`. -/
structure TTestResult where
  n : ℕ
  chatgpt_mean : ℚ
  google_mean : ℚ
  difference : ℚ
  t_statistic : PyFloat
  p_value : PyFloat
  significant : Bool
  cohens_d : PyFloat
  interpretation : String
deriving DecidableEq

/-- `interpret_cohens_d(d)` (analyzer.py lines 187-197): thresholds 0.2 /
0.5 / 0.8 on `abs(d)`; every branch guard is false for NaN, so the final
`else` returns `"large"`. -/
def interpretCohensD (d : PyFloat) : String :=
  let a := d.fabs
  if a.lt (.val (1 / 5)) then "negligible"
  else if a.lt (.val (1 / 2)) then "small"
  else if a.lt (.val (4 / 5)) then "medium"
  else "large"

/-- `paired_t_test(df, metric)` (analyzer.py lines 133-184), for a fixed
metric whose two columns are given as paired optional values.  `sq` stands
for the exact square root used inside `numpy` (only `sq 0 = 0` is relied
on), and `pv` for the two-sided t-distribution p-value of
`scipy.stats.ttest_rel` (only `pv nan = nan` is relied on).  Fewer than 2
paired rows yield the `'Insufficient data'` error, modelled as `none`. -/
def pairedTTest (sq : ℚ → ℚ) (pv : PyFloat → PyFloat)
    (rows : List (Option ℚ × Option ℚ)) : Option TTestResult :=
  let paired := pairedRows rows
  if paired.length < 2 then none
  else
    let a := paired.map Prod.fst
    let b := paired.map Prod.snd
    let ds := paired.map (fun p => p.1 - p.2)
    let t := PyFloat.divQ (meanQ ds) (sq (varQ ds / paired.length))
    let p := pv t
    let cohens_d := PyFloat.divQ (meanQ ds) (sq (varQ ds))
    some
      { n := paired.length
        chatgpt_mean := roundQ 2 (meanQ a)
        google_mean := roundQ 2 (meanQ b)
        difference := roundQ 2 (meanQ b - meanQ a)
        t_statistic := t.roundTo 3
        p_value := p.roundTo 4
        significant := p.lt (.val (1 / 20))
        cohens_d := cohens_d.roundTo 3
        interpretation := interpretCohensD cohens_d }

/-! ## Invariants -/

/-- The progress invariant that actually holds of the store: a query with
a results entry has a progress entry carrying at least one done flag, and
a scored progress entry carries at least one done flag. -/
def ProgressInv (s : DMState) : Prop :=
  (∀ q, (loadResults s q).isSome = true →
    ∃ pe, loadProgress s q = some pe ∧
      (pe.chatgpt_done = true ∨ pe.google_done = true))
  ∧ ∀ q pe, loadProgress s q = some pe → pe.scored = true →
      pe.chatgpt_done = true ∨ pe.google_done = true

/-- The selection invariant of `select_stratified_sample`: no id selected
twice, and every selected record comes from the input. -/
def SelInv (queries sel : List Query) : Prop :=
  (idsOf sel).Nodup ∧ ∀ q ∈ sel, q ∈ queries

/-! ## Theorems: claims C3 and C7 (retry loop and batch rate limiting) -/

/-- Claim C3 (code bug), evaluated at the failing input.  An invocation
whose first two calls fail and whose third succeeds is recorded as a
success after 3 attempts but with an empty sleep list: the exponential
backoff only runs in the `except` branch of `query_with_retry`, and
`query_chatgpt` catches every exception and returns `None`, so a failure
never sleeps.  An always-failing invocation is recorded as a failure after
exactly 3 attempts and the batch continues to the next item.  Only an
exception escaping the invocation (which `query_chatgpt` never lets
happen) would trigger the claimed sleeps of 2 s and 4 s. -/
theorem c3_backoff_dead_code :
    queryWithRetry (R := ℕ) (fun a => if a < 2 then .failNone else .ok 42) 3 2
        = (some 42, [], 3)
    ∧ queryWithRetry (R := ℕ) (fun _ => .failNone) 3 2 = (none, [], 3)
    ∧ (batchQuery (R := ℕ) (fun _ _ => .failNone) 3 2 1
        [⟨0, some "a"⟩, ⟨1, some "b"⟩]).1 = [⟨0, false⟩, ⟨1, false⟩]
    ∧ queryWithRetry (R := ℕ) (fun a => if a < 2 then .raised "err" else .ok 42) 3 2
        = (some 42, [2, 4], 3) := by
  refine ⟨by decide, by decide, by decide, ?_⟩
  have h1 : (2 : ℚ) * 2 ^ 0 = 2 := by norm_num
  have h2 : (2 : ℚ) * 2 ^ 1 = 4 := by norm_num
  calc queryWithRetry (R := ℕ) (fun a => if a < 2 then .raised "err" else .ok 42) 3 2
      = (some 42, [2 * 2 ^ 0, 2 * 2 ^ 1], 3) := rfl
    _ = (some 42, [2, 4], 3) := by rw [h1, h2]

/-- Claim C7 counterexample: in a batch of two items whose first item
fails, the rate-limit sleep still happens directly after the failed first
call, refuting "the delay ... never occurs after a failed call". -/
theorem c7_counterexample :
    (batchQuery (R := ℕ) (fun i _ => if i = 0 then .failNone else .ok 7) 3 2 1
        [⟨0, some "a"⟩, ⟨1, some "b"⟩]).2
      = [.call 0 false, .sleepRL 1, .call 1 true] := by
  decide

/-- Unfolding of the `batch_query` loop trace: one block per enumerated
item, empty for skipped items, and otherwise the call event followed by a
rate-limit sleep exactly when the item's position is not the last. -/
theorem batchGo_trace (respond : ℕ → ℕ → CallOutcome R) (ma : ℕ)
    (rd d : ℚ) (total : ℕ) :
    ∀ (qs : List BQuery) (idx : ℕ),
      (batchGo respond ma rd d total qs idx).2 =
        ((qs.enumFrom idx).map (fun p =>
          if falsyText p.2.query then []
          else BatchEvent.call p.2.id (queryWithRetry (respond p.1) ma rd).1.isSome ::
            (if p.1 < total - 1 then [BatchEvent.sleepRL d] else []))).flatten
  | [], _ => rfl
  | q :: rest, idx => by
    by_cases hf : falsyText q.query
    · simp only [batchGo, hf, if_true, List.enumFrom_cons, List.map_cons,
        List.flatten_cons, List.nil_append]
      exact batchGo_trace respond ma rd d total rest (idx + 1)
    · simp only [batchGo, hf, Bool.false_eq_true, if_false, List.enumFrom_cons,
        List.map_cons, List.flatten_cons, List.cons_append]
      rw [batchGo_trace respond ma rd d total rest (idx + 1)]

/-- Claim C7 (amended): in every batch run, the event trace is exactly one
block per item in order — nothing for an item with falsy query text, and
otherwise the item's call event (successful or not) followed by one
`rate_limit_delay` sleep precisely when the item's position is not the
final one.  So the delay follows every processed non-final item regardless
of success, and never the final item or a skipped item. -/
theorem c7_rate_limit_trace (respond : ℕ → ℕ → CallOutcome R) (ma : ℕ)
    (rd d : ℚ) (qs : List BQuery) :
    (batchQuery respond ma rd d qs).2 =
      (qs.enum.map (fun p =>
        if falsyText p.2.query then []
        else BatchEvent.call p.2.id (queryWithRetry (respond p.1) ma rd).1.isSome ::
          (if p.1 < qs.length - 1 then [BatchEvent.sleepRL d] else []))).flatten :=
  batchGo_trace respond ma rd d qs.length qs 0

/-! ## Theorems: claim C5 (paired t-test on identical vectors) -/

/-- Helper: on identical paired columns, every statistic degenerates: the
difference series is all zeros, its mean and sample variance are 0, so the
t statistic and Cohen's d are `0/0 = NaN`, the p-value is NaN, the
significance comparison with NaN is false, and the effect-size
classification falls through to `"large"`. -/
theorem pairedTTest_all_equal (sq : ℚ → ℚ) (pv : PyFloat → PyFloat)
    (rows : List (Option ℚ × Option ℚ))
    (hsq : sq 0 = 0) (hpv : pv .nan = .nan)
    (hlen : 2 ≤ (pairedRows rows).length)
    (heq : ∀ p ∈ pairedRows rows, p.1 = p.2) :
    (pairedTTest sq pv rows).map TTestResult.t_statistic = some .nan
    ∧ (pairedTTest sq pv rows).map TTestResult.p_value = some .nan
    ∧ (pairedTTest sq pv rows).map TTestResult.cohens_d = some .nan
    ∧ (pairedTTest sq pv rows).map TTestResult.significant = some false
    ∧ (pairedTTest sq pv rows).map TTestResult.interpretation = some "large" := by
  have hds : ∀ x ∈ (pairedRows rows).map (fun p => p.1 - p.2), x = 0 := by
    intro x hx
    obtain ⟨p, hp, rfl⟩ := List.mem_map.1 hx
    rw [heq p hp, sub_self]
  have hsum : ((pairedRows rows).map (fun p => p.1 - p.2)).sum = 0 :=
    List.sum_eq_zero hds
  have hmean : meanQ ((pairedRows rows).map (fun p => p.1 - p.2)) = 0 := by
    rw [meanQ, hsum, zero_div]
  have hvar : varQ ((pairedRows rows).map (fun p => p.1 - p.2)) = 0 := by
    rw [varQ, List.sum_eq_zero, zero_div]
    intro x hx
    obtain ⟨y, hy, rfl⟩ := List.mem_map.1 hx
    rw [hds y hy, hmean, sub_self]
    ring
  have hdq : PyFloat.divQ 0 0 = PyFloat.nan := by decide
  simp only [pairedTTest]
  rw [if_neg (Nat.not_lt.2 hlen), hmean, hvar]
  simp only [zero_div]
  rw [hsq, hdq, hpv]
  exact ⟨rfl, rfl, rfl, rfl, rfl⟩

/-- Claim C5 counterexample: on the identical paired vectors
`[(3,3), (4,4)]` the code does not report Cohen's d 0 with classification
"negligible" — for any square root with `sqrt 0 = 0` and any p-value
function mapping a NaN statistic to NaN, it reports `"large"`. -/
theorem c5_counterexample :
    ¬ (∀ (sq : ℚ → ℚ) (pv : PyFloat → PyFloat)
        (rows : List (Option ℚ × Option ℚ)),
        sq 0 = 0 → pv .nan = .nan → 2 ≤ (pairedRows rows).length →
        (∀ p ∈ pairedRows rows, p.1 = p.2) →
        (pairedTTest sq pv rows).map TTestResult.cohens_d = some (.val 0) ∧
        (pairedTTest sq pv rows).map TTestResult.interpretation = some "negligible") := by
  intro h
  have hlen : 2 ≤ (pairedRows [((some 3 : Option ℚ), (some 3 : Option ℚ)),
      (some 4, some 4)]).length := by decide
  have heq : ∀ p ∈ pairedRows [((some 3 : Option ℚ), (some 3 : Option ℚ)),
      (some 4, some 4)], p.1 = p.2 := by decide
  have h2 := h (fun q => q) (fun _ => .nan) [(some 3, some 3), (some 4, some 4)]
    rfl rfl hlen heq
  have h3 := (pairedTTest_all_equal (fun q => q) (fun _ => .nan)
    [(some 3, some 3), (some 4, some 4)] rfl rfl hlen heq).2.2.2.2
  rw [h3] at h2
  exact absurd (Option.some_injective _ h2.2) (by decide)

/-- Claim C5 (amended): on any DataFrame whose two columns agree on every
paired row, with at least two paired rows, `paired_t_test` returns NaN for
the t statistic, the p-value and Cohen's d, reports `significant = False`,
and classifies the effect size as `"large"` — the NaN falls through every
threshold comparison of `interpret_cohens_d` to the final `else`. -/
theorem c5_identical_vectors_nan (sq : ℚ → ℚ) (pv : PyFloat → PyFloat)
    (rows : List (Option ℚ × Option ℚ))
    (hsq : sq 0 = 0) (hpv : pv .nan = .nan)
    (hlen : 2 ≤ (pairedRows rows).length)
    (heq : ∀ p ∈ pairedRows rows, p.1 = p.2) :
    (pairedTTest sq pv rows).map TTestResult.t_statistic = some .nan
    ∧ (pairedTTest sq pv rows).map TTestResult.p_value = some .nan
    ∧ (pairedTTest sq pv rows).map TTestResult.cohens_d = some .nan
    ∧ (pairedTTest sq pv rows).map TTestResult.significant = some false
    ∧ (pairedTTest sq pv rows).map TTestResult.interpretation = some "large" :=
  pairedTTest_all_equal sq pv rows hsq hpv hlen heq

/-- Claim C5 witness: the amended statement instantiated at the concrete
identical vectors `[(3,3), (4,4)]`. -/
theorem c5_witness :
    (pairedTTest (fun q => q) (fun _ => .nan)
        [(some 3, some 3), (some 4, some 4)]).map TTestResult.t_statistic = some .nan
    ∧ (pairedTTest (fun q => q) (fun _ => .nan)
        [(some 3, some 3), (some 4, some 4)]).map TTestResult.p_value = some .nan
    ∧ (pairedTTest (fun q => q) (fun _ => .nan)
        [(some 3, some 3), (some 4, some 4)]).map TTestResult.cohens_d = some .nan
    ∧ (pairedTTest (fun q => q) (fun _ => .nan)
        [(some 3, some 3), (some 4, some 4)]).map TTestResult.significant = some false
    ∧ (pairedTTest (fun q => q) (fun _ => .nan)
        [(some 3, some 3), (some 4, some 4)]).map TTestResult.interpretation
        = some "large" :=
  c5_identical_vectors_nan (fun q => q) (fun _ => .nan)
    [(some 3, some 3), (some 4, some 4)] rfl rfl (by decide) (by decide)

/-! ## Theorems: claim C8 (save-scores input validation) -/

/-- Claim C8 (confirmed): a save-scores request with `query_id` absent,
`scores` absent, or any required score field missing from `scores` is
rejected synchronously with HTTP 400 and a descriptive error, and the
persisted store is returned unchanged — no partial write. -/
theorem c8_invalid_request_rejected (now : String) (req : SaveScoresReq)
    (s : DMState)
    (h : req.query_id = none ∨ req.scores = none ∨
      ∃ sc, req.scores = some sc ∧ ∃ f ∈ requiredScoreFields, sc.hasKey f = false) :
    (appSaveScores now req s).1.status = 400
    ∧ (appSaveScores now req s).1.success = false
    ∧ (appSaveScores now req s).1.error.isSome = true
    ∧ (appSaveScores now req s).2 = s := by
  obtain ⟨qid?, sc?⟩ := req
  rcases h with h | h | ⟨sc, hsc, f, hf, hmiss⟩
  · cases h
    exact ⟨rfl, rfl, rfl, rfl⟩
  · cases h
    cases qid? with
    | none => exact ⟨rfl, rfl, rfl, rfl⟩
    | some qid => exact ⟨rfl, rfl, rfl, rfl⟩
  · cases hsc
    cases qid? with
    | none => exact ⟨rfl, rfl, rfl, rfl⟩
    | some qid =>
      by_cases hempty : sc.isEmpty = true
      · have hred : appSaveScores now ⟨some qid, some sc⟩ s =
            ({ success := false, error := some "Missing required fields", status := 400 }, s) := by
          simp only [appSaveScores, hempty, if_true]
        rw [hred]
        exact ⟨rfl, rfl, rfl, rfl⟩
      · have hfind : (requiredScoreFields.find? (fun g => !sc.hasKey g)).isSome = true := by
          rw [List.find?_isSome]
          exact ⟨f, hf, by rw [hmiss]; rfl⟩
        obtain ⟨g, hg⟩ := Option.isSome_iff_exists.1 hfind
        have hred : appSaveScores now ⟨some qid, some sc⟩ s =
            (({ success := false, error := some ("Missing score field: " ++ g),
                status := 400 } : ApiResponse), s) := by
          simp only [appSaveScores, eq_false_of_ne_true hempty, Bool.false_eq_true,
            if_false, hg]
        rw [hred]
        exact ⟨rfl, rfl, rfl, rfl⟩

/-- Claim C8 witness: a concrete request carrying only one of the eight
required score fields is rejected with 400 and leaves the store alone. -/
theorem c8_witness :
    (appSaveScores "t" ⟨some 0, some [("chatgpt_relevance", Val.num 5)]⟩ dmInit).1.status = 400
    ∧ (appSaveScores "t" ⟨some 0, some [("chatgpt_relevance", Val.num 5)]⟩ dmInit).1.success = false
    ∧ (appSaveScores "t" ⟨some 0, some [("chatgpt_relevance", Val.num 5)]⟩ dmInit).1.error.isSome = true
    ∧ (appSaveScores "t" ⟨some 0, some [("chatgpt_relevance", Val.num 5)]⟩ dmInit).2 = dmInit :=
  c8_invalid_request_rejected "t" ⟨some 0, some [("chatgpt_relevance", Val.num 5)]⟩ dmInit
    (Or.inr (Or.inr ⟨[("chatgpt_relevance", Val.num 5)], rfl,
      "chatgpt_completeness", by decide, by decide⟩))

/-! ## Theorems: claim C10 (frame effect of save_result) -/

/-- Unfolding of the results store after `save_result`. -/
theorem loadResults_saveResult (now : String) (qid : ℕ) (p : Platform)
    (rd : Dict) (s : DMState) :
    loadResults (saveResult now qid p rd s).1 = fun n =>
      if n = qid then
        some (((loadResults s qid).getD { query_id := qid }).setPlat p
          (if rd.hasKey "timestamp" then rd else rd.setKey "timestamp" (Val.str now)))
      else loadResults s n := rfl

/-- Claim C10 (confirmed): a `save_result` call changes only the given
platform's response field of the given query's results entry (filling in a
timestamp when the response data lacks one); every other query's entry,
the same query's other platform response, its manual scores and its LLM
scores are unchanged in the persisted results store. -/
theorem c10_save_result_frame (now : String) (qid : ℕ) (p : Platform)
    (rd : Dict) (s : DMState) (q' : ℕ) (hq : q' ≠ qid) :
    loadResults (saveResult now qid p rd s).1 q' = loadResults s q'
    ∧ (loadResults (saveResult now qid p rd s).1 qid).bind (fun e => e.getPlat p.other)
        = (loadResults s qid).bind (fun e => e.getPlat p.other)
    ∧ (loadResults (saveResult now qid p rd s).1 qid).bind REntry.scores
        = (loadResults s qid).bind REntry.scores
    ∧ (loadResults (saveResult now qid p rd s).1 qid).bind REntry.llm_scores
        = (loadResults s qid).bind REntry.llm_scores
    ∧ (loadResults (saveResult now qid p rd s).1 qid).bind (fun e => e.getPlat p)
        = some (if rd.hasKey "timestamp" then rd
            else rd.setKey "timestamp" (Val.str now)) := by
  rw [loadResults_saveResult]
  refine ⟨by simp [hq], ?_, ?_, ?_, ?_⟩ <;>
    cases hres : loadResults s qid <;> cases p <;>
      simp [REntry.setPlat, REntry.getPlat, Platform.other]

/-- Claim C10 witness: the frame property applied at the empty store,
query 0, platform chatgpt, and spectator query 1. -/
theorem c10_witness :
    loadResults (saveResult "t" 0 .chatgpt [] dmInit).1 1 = loadResults dmInit 1
    ∧ (loadResults (saveResult "t" 0 .chatgpt [] dmInit).1 0).bind
        (fun e => e.getPlat Platform.chatgpt.other)
        = (loadResults dmInit 0).bind (fun e => e.getPlat Platform.chatgpt.other)
    ∧ (loadResults (saveResult "t" 0 .chatgpt [] dmInit).1 0).bind REntry.scores
        = (loadResults dmInit 0).bind REntry.scores
    ∧ (loadResults (saveResult "t" 0 .chatgpt [] dmInit).1 0).bind REntry.llm_scores
        = (loadResults dmInit 0).bind REntry.llm_scores
    ∧ (loadResults (saveResult "t" 0 .chatgpt [] dmInit).1 0).bind
        (fun e => e.getPlat .chatgpt)
        = some (if Dict.hasKey [] "timestamp" then []
            else Dict.setKey [] "timestamp" (Val.str "t")) :=
  c10_save_result_frame "t" 0 .chatgpt [] dmInit 1 (by decide)

/-! ## Theorems: claim C6 (backup before overwrite) -/

/-- Claim C6 counterexample: `update_progress` overwrites an existing
`progress.json` without ever emitting a backup event, refuting "every save
operation that overwrites an existing file first creates a backup". -/
theorem c6_counterexample :
    ¬ (∀ (now : String) (qid : ℕ) (fld : PField) (s : DMState),
        s.progressFile.isSome = true →
        FsEvent.backup .progressF ∈ (updateProgress now qid fld s).2.2) := by
  intro h
  have h2 := h "t" 0 .scoredF ⟨none, some (fun _ => none)⟩ rfl
  simp [updateProgress] at h2

/-- Claim C6 (amended): `save_result` — and `save_scores` on a query that
has a results entry — first backs up the existing `results.json`, then
writes it, then writes `progress.json`; but `update_progress` overwrites
`progress.json` directly with no backup at all. -/
theorem c6_backup_policy (now : String) (qid : ℕ) (p : Platform)
    (rd sc : Dict) (fld : PField) (s : DMState)
    (hex : s.resultsFile.isSome = true) :
    (saveResult now qid p rd s).2.2
        = [FsEvent.backup .resultsF, FsEvent.write .resultsF, FsEvent.write .progressF]
    ∧ ((loadResults s qid).isSome = true →
        (saveScores now qid sc s).2.2
          = [FsEvent.backup .resultsF, FsEvent.write .resultsF, FsEvent.write .progressF])
    ∧ (updateProgress now qid fld s).2.2 = [FsEvent.write .progressF] := by
  refine ⟨?_, ?_, rfl⟩
  · simp [saveResult, updateProgress, hex]
  · intro hres
    obtain ⟨e, he⟩ := Option.isSome_iff_exists.1 hres
    simp [saveScores, he, updateProgress, hex]

/-- Claim C6 witness: the backup policy at a concrete store whose results
file holds query 0. -/
theorem c6_witness :
    (saveResult "t" 0 .chatgpt []
        ⟨some (fun n => if n = 0 then some { query_id := 0 } else none), none⟩).2.2
        = [FsEvent.backup .resultsF, FsEvent.write .resultsF, FsEvent.write .progressF]
    ∧ ((loadResults ⟨some (fun n => if n = 0 then some { query_id := 0 } else none),
          none⟩ 0).isSome = true →
        (saveScores "t" 0 []
          ⟨some (fun n => if n = 0 then some { query_id := 0 } else none), none⟩).2.2
          = [FsEvent.backup .resultsF, FsEvent.write .resultsF, FsEvent.write .progressF])
    ∧ (updateProgress "t" 0 .scoredF
        ⟨some (fun n => if n = 0 then some { query_id := 0 } else none), none⟩).2.2
        = [FsEvent.write .progressF] :=
  c6_backup_policy "t" 0 .chatgpt [] [] .scoredF
    ⟨some (fun n => if n = 0 then some { query_id := 0 } else none), none⟩ rfl

/-! ## Theorems: claim C1 (progress invariant) -/

/-- Unfolding of the progress store after `update_progress`. -/
theorem loadProgress_updateProgress (now : String) (qid : ℕ) (fld : PField)
    (s : DMState) :
    loadProgress (updateProgress now qid fld s).1 = fun n =>
      if n = qid then
        some { ((loadProgress s qid).getD {}).setField fld with last_updated := some now }
      else loadProgress s n := rfl

/-- Unfolding of the progress store after `save_result`. -/
theorem loadProgress_saveResult (now : String) (qid : ℕ) (p : Platform)
    (rd : Dict) (s : DMState) :
    loadProgress (saveResult now qid p rd s).1 = fun n =>
      if n = qid then
        some { ((loadProgress s qid).getD {}).setField p.doneField with
          last_updated := some now }
      else loadProgress s n := rfl

/-- Failing `save_scores` (no results entry) leaves the state alone. -/
theorem saveScores_of_none {now : String} {qid : ℕ} {sc : Dict} {s : DMState}
    (h : loadResults s qid = none) :
    saveScores now qid sc s = (s, false, []) := by
  have h' : s.resultsFile.getD (fun _ => none) qid = none := h
  simp [saveScores, h, h']

/-- Unfolding of the two stores after a successful `save_scores`. -/
theorem saveScores_of_some {now : String} {qid : ℕ} {sc : Dict} {s : DMState}
    {e : REntry} (h : loadResults s qid = some e) :
    loadResults (saveScores now qid sc s).1 = (fun n =>
      if n = qid then some { e with scores := some (sc.setKey "timestamp" (Val.str now)) }
      else loadResults s n)
    ∧ loadProgress (saveScores now qid sc s).1 = fun n =>
      if n = qid then
        some { ((loadProgress s qid).getD {}).setField .scoredF with
          last_updated := some now }
      else loadProgress s n := by
  have h' : s.resultsFile.getD (fun _ => none) qid = some e := h
  constructor <;> simp [saveScores, h, h', updateProgress, loadResults, loadProgress]

/-- The invariant holds initially: both stores are empty. -/
theorem progressInv_init : ProgressInv dmInit := by
  constructor
  · intro q hq
    cases hq
  · intro q pe hpe
    cases hpe

/-- Every `save_result` / `save_scores` operation preserves the
invariant. -/
theorem progressInv_applyOp (s : DMState) (op : DMOp) (h : ProgressInv s) :
    ProgressInv (applyOp s op) := by
  obtain ⟨h1, h2⟩ := h
  cases op with
  | saveRes now qid p rd =>
    simp only [applyOp]
    constructor
    · intro q hq
      simp only [loadProgress_saveResult]
      by_cases hqq : q = qid
      · subst hqq
        rw [if_pos rfl]
        refine ⟨_, rfl, ?_⟩
        cases p <;> simp [PEntry.setField, Platform.doneField]
      · rw [if_neg hqq]
        apply h1
        simp only [loadResults_saveResult, if_neg hqq] at hq
        exact hq
    · intro q pe hpe hsc
      simp only [loadProgress_saveResult] at hpe
      by_cases hqq : q = qid
      · subst hqq
        rw [if_pos rfl] at hpe
        cases hpe
        cases p <;> simp [PEntry.setField, Platform.doneField]
      · rw [if_neg hqq] at hpe
        exact h2 q pe hpe hsc
  | saveSc now qid sc =>
    cases hres : loadResults s qid with
    | none =>
      have heq : applyOp s (.saveSc now qid sc) = s := by
        simp [applyOp, saveScores_of_none hres]
      rw [heq]
      exact ⟨h1, h2⟩
    | some e =>
      obtain ⟨pe0, hpe0, hdone0⟩ := h1 qid (by rw [hres]; rfl)
      obtain ⟨hR, hP⟩ := @saveScores_of_some now qid sc s e hres
      simp only [applyOp]
      constructor
      · intro q hq
        simp only [hP]
        by_cases hqq : q = qid
        · subst hqq
          rw [if_pos rfl]
          refine ⟨_, rfl, ?_⟩
          rw [hpe0]
          simpa [PEntry.setField] using hdone0
        · rw [if_neg hqq]
          apply h1
          simp only [hR, if_neg hqq] at hq
          exact hq
      · intro q pe hpe hsc'
        simp only [hP] at hpe
        by_cases hqq : q = qid
        · subst hqq
          rw [if_pos rfl] at hpe
          cases hpe
          rw [hpe0]
          simpa [PEntry.setField] using hdone0
        · rw [if_neg hqq] at hpe
          exact h2 q pe hpe hsc'

/-- The invariant holds of every state reachable from the empty store. -/
theorem progressInv_runOps (ops : List DMOp) :
    ∀ s, ProgressInv s → ProgressInv (runOps s ops) := by
  induction ops with
  | nil => exact fun s h => h
  | cons op ops ih => exact fun s h => ih _ (progressInv_applyOp s op h)

/-- Claim C1 counterexample: after `save_result(0, 'chatgpt', ...)`
followed by `save_scores(0, ...)` (a reachable two-operation run), the
persisted progress entry of query 0 has `scored = True` but
`google_done = False`, refuting `scored ⇒ chatgpt_done ∧ google_done`. -/
theorem c1_counterexample :
    ¬ (∀ (ops : List DMOp) (q : ℕ) (pe : PEntry),
        loadProgress (runOps dmInit ops) q = some pe → pe.scored = true →
        pe.chatgpt_done = true ∧ pe.google_done = true) := by
  intro h
  have h2 := h [.saveRes "t1" 0 .chatgpt [], .saveSc "t2" 0 []] 0
    ⟨true, false, true, some "t2"⟩ (by decide) rfl
  exact absurd h2.2 (by decide)

/-- Claim C1 (amended): after any sequence of `save_result` and
`save_scores` operations from the empty store, every progress entry
satisfies `scored ⇒ chatgpt_done ∨ google_done` — a scored query has at
least one completed response, because `save_scores` requires a results
entry and a results entry is only created by `save_result`, which sets its
platform's done flag.  The conjunction `chatgpt_done ∧ google_done` is not
maintained, and `save_scores` on a query whose progress entry is absent
(with a results entry present) creates an entry with `scored = True` and
both done flags `False`. -/
theorem c1_scored_implies_some_response (ops : List DMOp) (q : ℕ) (pe : PEntry)
    (hpe : loadProgress (runOps dmInit ops) q = some pe)
    (hsc : pe.scored = true) :
    pe.chatgpt_done = true ∨ pe.google_done = true :=
  (progressInv_runOps ops dmInit progressInv_init).2 q pe hpe hsc

/-- Claim C1 witness: the amended invariant applied after a concrete
three-operation run that saves both responses and then the scores of
query 0. -/
theorem c1_witness :
    (⟨true, true, true, some "t3"⟩ : PEntry).chatgpt_done = true
      ∨ (⟨true, true, true, some "t3"⟩ : PEntry).google_done = true :=
  c1_scored_implies_some_response
    [.saveRes "t1" 0 .chatgpt [], .saveRes "t2" 0 .google [], .saveSc "t3" 0 []] 0
    ⟨true, true, true, some "t3"⟩ (by decide) rfl

/-! ## Theorems: claim C2 (queries needing scores) -/

/-- Claim C2 counterexample: save both responses for query 0 and write
automated `llm_scores` for it through the LLM-judge path (which never
touches `progress.json`); `get_queries_needing_scores` still returns the
query even though an automated ScoreSet exists, refuting the claimed
if-and-only-if characterisation. -/
theorem c2_counterexample :
    ¬ (∀ (queries : List Query) (s : DMState) (q : Query),
        q ∈ (getQueriesNeedingScores queries s).map ScQuery.base ↔
          (q ∈ queries
            ∧ ((loadResults s q.id).bind REntry.chatgpt).isSome = true
            ∧ ((loadResults s q.id).bind REntry.google).isSome = true
            ∧ (loadResults s q.id).bind REntry.scores = none
            ∧ (loadResults s q.id).bind REntry.llm_scores = none)) := by
  intro h
  have h2 := (h [⟨0, "q", "c", "Good", "High"⟩]
    (llmJudgeSaveScores 0 [("chatgpt_relevance", Val.num 5)]
      ((saveResult "t2" 0 .google [("response", Val.str "g")]
        ((saveResult "t1" 0 .chatgpt [("response", Val.str "c")] dmInit).1)).1))
    ⟨0, "q", "c", "Good", "High"⟩).mp (by decide)
  exact absurd h2.2.2.2.2 (by decide)

/-- Claim C2 (amended): `get_queries_needing_scores` returns a query if
and only if it is in the dataset and its cached progress entry has
`chatgpt_done` and `google_done` set and `scored` unset.  The results
store is only consulted to attach responses, so neither the actual
presence of the responses nor existing `scores` / `llm_scores` entries
affect membership. -/
theorem c2_needing_scores_membership (queries : List Query) (s : DMState)
    (q : Query) :
    q ∈ (getQueriesNeedingScores queries s).map ScQuery.base ↔
      (q ∈ queries ∧ ∃ pe, loadProgress s q.id = some pe ∧
        pe.chatgpt_done = true ∧ pe.google_done = true ∧ pe.scored = false) := by
  simp only [getQueriesNeedingScores, List.map_map, List.mem_map, Function.comp]
  constructor
  · rintro ⟨x, hx, hbase⟩
    rw [List.mem_filter] at hx
    have hxq : x = q := by
      rw [← hbase]
      cases hp : loadResults s x.id <;> simp [hp]
    subst hxq
    refine ⟨hx.1, ?_⟩
    revert hx
    cases hp : loadProgress s x.id with
    | none => intro hx; cases hx.2
    | some pe =>
      intro hx
      have := hx.2
      simp only [Bool.and_eq_true, Bool.not_eq_true'] at this
      exact ⟨pe, rfl, this.1.1, this.1.2, this.2⟩
  · rintro ⟨hmem, pe, hpe, hc, hg, hns⟩
    refine ⟨q, ?_, ?_⟩
    · rw [List.mem_filter]
      refine ⟨hmem, ?_⟩
      simp [hpe, hc, hg, hns]
    · cases hp : loadResults s q.id <;> simp [hp]

/-! ## Theorems: claims C4 and C9 (stratified sampling) -/

/-- Membership in the deduplication worker: an element survives iff it is
in the list and not among the seen ones. -/
theorem mem_dedupFirstAux [DecidableEq α] :
    ∀ (l seen : List α) (a : α),
      a ∈ dedupFirstAux seen l ↔ a ∈ l ∧ a ∉ seen
  | [], seen, a => by simp [dedupFirstAux]
  | b :: l, seen, a => by
    rw [dedupFirstAux]
    by_cases hb : b ∈ seen
    · rw [if_pos hb, mem_dedupFirstAux l seen a]
      constructor
      · exact fun h => ⟨List.mem_cons_of_mem _ h.1, h.2⟩
      · rintro ⟨h1, h2⟩
        rcases List.mem_cons.1 h1 with rfl | h1
        · exact absurd hb h2
        · exact ⟨h1, h2⟩
    · rw [if_neg hb]
      simp only [List.mem_cons, mem_dedupFirstAux l (b :: seen) a]
      constructor
      · rintro (rfl | ⟨h1, h2⟩)
        · exact ⟨Or.inl rfl, hb⟩
        · exact ⟨Or.inr h1, fun hs => h2 (Or.inr hs)⟩
      · rintro ⟨(rfl | h1), h2⟩
        · exact Or.inl rfl
        · by_cases hab : a = b
          · exact Or.inl hab
          · refine Or.inr ⟨h1, fun hs => ?_⟩
            rcases hs with rfl | hs
            · exact hab rfl
            · exact h2 hs

/-- The deduplication worker never repeats an element. -/
theorem nodup_dedupFirstAux [DecidableEq α] :
    ∀ (l seen : List α), (dedupFirstAux seen l).Nodup
  | [], _ => List.nodup_nil
  | b :: l, seen => by
    rw [dedupFirstAux]
    by_cases hb : b ∈ seen
    · rw [if_pos hb]
      exact nodup_dedupFirstAux l seen
    · rw [if_neg hb, List.nodup_cons]
      refine ⟨?_, nodup_dedupFirstAux l (b :: seen)⟩
      intro hmem
      exact ((mem_dedupFirstAux l (b :: seen) b).1 hmem).2 (List.mem_cons_self b seen)

/-- Membership is preserved by first-occurrence deduplication. -/
theorem mem_dedupFirst [DecidableEq α] (l : List α) (a : α) :
    a ∈ dedupFirst l ↔ a ∈ l := by
  rw [dedupFirst, mem_dedupFirstAux]
  simp

/-- First-occurrence deduplication yields a duplicate-free list. -/
theorem nodup_dedupFirst [DecidableEq α] (l : List α) : (dedupFirst l).Nodup :=
  nodup_dedupFirstAux l []

/-- Deduplicating a non-empty list is non-empty. -/
theorem dedupFirst_ne_nil [DecidableEq α] {l : List α} (h : l ≠ []) :
    dedupFirst l ≠ [] := by
  cases l with
  | nil => exact absurd rfl h
  | cons a l =>
    rw [dedupFirst, dedupFirstAux, if_neg (List.not_mem_nil a)]
    exact List.cons_ne_nil _ _

/-- A subpermutation maps to a subpermutation. -/
theorem subperm_map_of_subperm (f : α → β) {l₁ l₂ : List α}
    (h : List.Subperm l₁ l₂) : List.Subperm (l₁.map f) (l₂.map f) := by
  obtain ⟨l, hp, hs⟩ := h
  exact ⟨l.map f, hp.map f, hs.map f⟩

/-- A subpermutation of a duplicate-free list is duplicate-free. -/
theorem nodup_of_subperm {l₁ l₂ : List α} (h : List.Subperm l₁ l₂)
    (h₂ : l₂.Nodup) : l₁.Nodup := by
  obtain ⟨l, hp, hs⟩ := h
  exact hp.nodup (hs.nodup h₂)

/-- The `take` sampler satisfies the `random.sample` contract. -/
theorem takeSampler_ok : SamplerOK takeSampler := by
  intro pop n hn
  refine ⟨?_, (List.take_sublist n pop).subperm⟩
  rw [takeSampler, List.length_take]
  exact Nat.min_eq_left hn

/-- Appending id-fresh queries from the input preserves the selection
invariant. -/
theorem selInv_append {queries a b : List Query} (hq : (idsOf queries).Nodup)
    (hA : SelInv queries a) (hbmem : ∀ q ∈ b, q ∈ queries)
    (hbnd : (idsOf b).Nodup) (hdis : ∀ q ∈ b, q.id ∉ idsOf a) :
    SelInv queries (a ++ b) := by
  constructor
  · rw [idsOf, List.map_append]
    refine List.Nodup.append hA.1 hbnd ?_
    intro x hx hx'
    obtain ⟨qq, hqmem, rfl⟩ := List.mem_map.1 hx'
    exact hdis qq hqmem hx
  · intro q hq'
    rcases List.mem_append.1 hq' with h | h
    · exact hA.2 q h
    · exact hbmem q h

/-- Sampling from an id-fresh sublist of the input preserves the
selection invariant. -/
theorem selInv_extend {samp : Sampler} {queries sel avail : List Query}
    {n : ℕ} (hs : SamplerOK samp) (hq : (idsOf queries).Nodup)
    (hinv : SelInv queries sel) (hmem : ∀ q ∈ avail, q ∈ queries)
    (hnd : (idsOf avail).Nodup) (hdis : ∀ q ∈ avail, q.id ∉ idsOf sel)
    (hn : n ≤ avail.length) : SelInv queries (sel ++ samp avail n) := by
  obtain ⟨hlen, hsub⟩ := hs avail n hn
  exact selInv_append hq hinv (fun q hq' => hmem q (hsub.subset hq'))
    (nodup_of_subperm (subperm_map_of_subperm Query.id hsub) hnd)
    (fun q hq' => hdis q (hsub.subset hq'))

/-- Elements selected under the invariant form a subpermutation of the
input. -/
theorem selInv_subperm {queries sel : List Query}
    (hq : (idsOf queries).Nodup) (hinv : SelInv queries sel) :
    List.Subperm sel queries :=
  (List.Nodup.of_map Query.id hinv.1).subperm (fun q hq' => hinv.2 q hq')

/-- Ids are injective on a list with duplicate-free ids. -/
theorem id_inj {queries : List Query} (hq : (idsOf queries).Nodup)
    {a b : Query} (ha : a ∈ queries) (hb : b ∈ queries) (h : a.id = b.id) :
    a = b :=
  List.inj_on_of_nodup_map hq ha hb h

/-- Elements of `catAvail` come from the input. -/
theorem catAvail_mem {queries sel : List Query} {c : String} :
    ∀ q ∈ catAvail queries sel c, q ∈ queries := fun _ hq =>
  List.mem_of_mem_filter (List.mem_of_mem_filter hq)

/-- The ids of `catAvail` are duplicate-free when the input's are. -/
theorem catAvail_ids_nodup {queries sel : List Query} {c : String}
    (hq : (idsOf queries).Nodup) : (idsOf (catAvail queries sel c)).Nodup :=
  List.Nodup.sublist
    (((List.filter_sublist _).trans (List.filter_sublist _)).map Query.id) hq

/-- Elements of `catAvail` are id-fresh for the current selection. -/
theorem catAvail_not_sel {queries sel : List Query} {c : String} :
    ∀ q ∈ catAvail queries sel c, q.id ∉ idsOf sel := fun _ hq =>
  decide_eq_true_iff.1 (List.mem_filter.1 hq).2

/-- One category step preserves the selection invariant. -/
theorem selInv_catStep {samp : Sampler} {spc : ℕ} {queries sel : List Query}
    {c : String} (hs : SamplerOK samp) (hq : (idsOf queries).Nodup)
    (hinv : SelInv queries sel) :
    SelInv queries (catStep samp spc queries sel c) :=
  selInv_extend hs hq hinv catAvail_mem (catAvail_ids_nodup hq)
    catAvail_not_sel (Nat.min_le_right _ _)

/-- One category step adds at most `samples_per_category` queries. -/
theorem catStep_length {samp : Sampler} {spc : ℕ} {queries sel : List Query}
    {c : String} (hs : SamplerOK samp) :
    (catStep samp spc queries sel c).length ≤ sel.length + spc := by
  show (sel ++ samp (catAvail queries sel c)
    (min spc (catAvail queries sel c).length)).length ≤ sel.length + spc
  rw [List.length_append, (hs _ _ (Nat.min_le_right _ _)).1]
  exact Nat.add_le_add_left (Nat.min_le_left _ _) _

/-- The category loop preserves the selection invariant. -/
theorem foldl_catStep_inv {samp : Sampler} {spc : ℕ} {queries : List Query}
    (hs : SamplerOK samp) (hq : (idsOf queries).Nodup) :
    ∀ (cats : List String) (sel : List Query), SelInv queries sel →
      SelInv queries (cats.foldl (catStep samp spc queries) sel)
  | [], _, hinv => hinv
  | c :: cats, sel, hinv =>
    foldl_catStep_inv hs hq cats _ (selInv_catStep hs hq hinv)

/-- The category loop adds at most `samples_per_category` queries per
category. -/
theorem foldl_catStep_length {samp : Sampler} {spc : ℕ} {queries : List Query}
    (hs : SamplerOK samp) :
    ∀ (cats : List String) (sel : List Query),
      (cats.foldl (catStep samp spc queries) sel).length
        ≤ sel.length + spc * cats.length
  | [], sel => by simp
  | c :: cats, sel => by
    have h1 := @foldl_catStep_length samp spc queries hs cats
      (catStep samp spc queries sel c)
    have h2 := @catStep_length samp spc queries sel c hs
    rw [List.foldl_cons]
    calc (cats.foldl (catStep samp spc queries) (catStep samp spc queries sel c)).length
        ≤ (catStep samp spc queries sel c).length + spc * cats.length := h1
      _ ≤ sel.length + spc + spc * cats.length := Nat.add_le_add_right h2 _
      _ = sel.length + spc * (c :: cats).length := by
          rw [List.length_cons]
          ring

/-- Elements of the raw priority list come from the input and are
id-fresh for the current selection. -/
theorem priorityRaw_mem {queries sel : List Query} :
    ∀ q ∈ priorityRaw queries sel, q ∈ queries ∧ q.id ∉ idsOf sel := by
  intro q hq
  rcases List.mem_append.1 hq with h | h <;>
  · obtain ⟨h1, h2⟩ := List.mem_filter.1 h
    refine ⟨?_, decide_eq_true_iff.1 h2⟩
    rcases List.mem_append.1 h1 with h3 | h3 <;>
      exact List.mem_of_mem_filter h3

/-- Elements of the deduplicated priority list come from the raw list. -/
theorem dedupById_mem {l : List Query} : ∀ q ∈ dedupById l, q ∈ l := by
  intro q hq
  obtain ⟨i, _, hq2⟩ := List.mem_filterMap.1 hq
  exact List.mem_of_mem_filter (List.mem_of_mem_getLast? (Option.mem_def.2 hq2))

/-- The record stored under key `i` by `dedupById` carries id `i`. -/
theorem dedupById_id_of {l : List Query} {i : ℕ} {q : Query}
    (h : (l.filter (fun x => decide (x.id = i))).getLast? = some q) :
    q.id = i :=
  decide_eq_true_iff.1
    (List.mem_filter.1 (List.mem_of_mem_getLast? (Option.mem_def.2 h))).2

/-- The deduplicated priority list has duplicate-free ids. -/
theorem dedupById_ids_nodup (l : List Query) : (idsOf (dedupById l)).Nodup := by
  have aux : ∀ keys : List ℕ, keys.Nodup →
      (idsOf (keys.filterMap
        (fun i => (l.filter (fun q => decide (q.id = i))).getLast?))).Nodup := by
    intro keys
    induction keys with
    | nil => intro _; exact List.nodup_nil
    | cons i keys ih =>
      intro hnd
      rw [List.filterMap_cons]
      cases hgl : (l.filter (fun q => decide (q.id = i))).getLast? with
      | none => exact ih (List.nodup_cons.1 hnd).2
      | some q =>
        rw [idsOf, List.map_cons, List.nodup_cons]
        refine ⟨?_, ih (List.nodup_cons.1 hnd).2⟩
        intro hmem
        obtain ⟨q2, hq2mem, hq2id⟩ := List.mem_map.1 hmem
        obtain ⟨j, hj, hq2⟩ := List.mem_filterMap.1 hq2mem
        have hij : i = j := by
          rw [← dedupById_id_of hgl, ← dedupById_id_of hq2, hq2id]
        exact (List.nodup_cons.1 hnd).1 (hij ▸ hj)
  exact aux _ (nodup_dedupFirst _)

/-- The priority fill preserves the selection invariant. -/
theorem stage2_inv {samp : Sampler} {queries sel : List Query} {rem : ℕ}
    (hs : SamplerOK samp) (hq : (idsOf queries).Nodup)
    (hinv : SelInv queries sel) :
    SelInv queries (stage2 samp queries sel rem).1 := by
  rw [stage2]
  split
  · dsimp only
    split
    · exact hinv
    · exact selInv_extend hs hq hinv
        (fun q hq' => (priorityRaw_mem q (dedupById_mem q hq')).1)
        (dedupById_ids_nodup _)
        (fun q hq' => (priorityRaw_mem q (dedupById_mem q hq')).2)
        (Nat.min_le_right _ _)
  · exact hinv

/-- The priority fill keeps `len(selected) + remaining` constant. -/
theorem stage2_sum {samp : Sampler} {queries sel : List Query} {rem : ℕ}
    (hs : SamplerOK samp) :
    (stage2 samp queries sel rem).1.length + (stage2 samp queries sel rem).2
      = sel.length + rem := by
  rw [stage2]
  split
  · dsimp only
    split
    · rfl
    · rw [List.length_append, (hs _ _ (Nat.min_le_right _ _)).1]
      have := Nat.min_le_left rem (dedupById (priorityRaw queries sel)).length
      omega
  · rfl

/-- The final random fill preserves the selection invariant. -/
theorem stage3_inv {samp : Sampler} {queries sel : List Query} {rem : ℕ}
    (hs : SamplerOK samp) (hq : (idsOf queries).Nodup)
    (hinv : SelInv queries sel) :
    SelInv queries (stage3 samp queries sel rem) := by
  rw [stage3]
  split
  · dsimp only
    split
    · exact hinv
    · exact selInv_extend hs hq hinv
        (fun q hq' => List.mem_of_mem_filter hq')
        (List.Nodup.sublist ((List.filter_sublist _).map Query.id) hq)
        (fun q hq' => decide_eq_true_iff.1 (List.mem_filter.1 hq').2)
        (Nat.min_le_right _ _)
  · exact hinv

/-- The final random fill adds at most `remaining` queries. -/
theorem stage3_length {samp : Sampler} {queries sel : List Query} {rem : ℕ}
    (hs : SamplerOK samp) :
    (stage3 samp queries sel rem).length ≤ sel.length + rem := by
  rw [stage3]
  split
  · dsimp only
    split
    · exact Nat.le_add_right _ _
    · rw [List.length_append, (hs _ _ (Nat.min_le_right _ _)).1]
      exact Nat.add_le_add_left (Nat.min_le_left _ _) _
  · exact Nat.le_add_right _ _

/-- Lengths of two id-disjoint selections from the input add up to at
most the input length. -/
theorem append_length_le {queries a b : List Query}
    (hq : (idsOf queries).Nodup) (hA : SelInv queries a)
    (hbmem : ∀ q ∈ b, q ∈ queries) (hbnd : (idsOf b).Nodup)
    (hdis : ∀ q ∈ b, q.id ∉ idsOf a) :
    a.length + b.length ≤ queries.length := by
  have h := (selInv_subperm hq (selInv_append hq hA hbmem hbnd hdis)).length_le
  rwa [List.length_append] at h

/-- When enough slots remain, the final random fill scoops up every query
not yet selected, so everything is selected afterwards. -/
theorem stage3_complete {samp : Sampler} {queries sel : List Query} {rem : ℕ}
    (hs : SamplerOK samp) (hq : (idsOf queries).Nodup)
    (hinv : SelInv queries sel)
    (htot : queries.length ≤ sel.length + rem) :
    ∀ q ∈ queries, q ∈ stage3 samp queries sel rem := by
  intro q hmem
  have hsel_sub : sel ⊆ stage3 samp queries sel rem := by
    rw [stage3]
    split
    · dsimp only
      split
      · exact fun x hx => hx
      · exact fun x hx => List.mem_append_left _ hx
    · exact fun x hx => hx
  by_cases hid : q.id ∈ idsOf sel
  · obtain ⟨q2, hq2, hq2id⟩ := List.mem_map.1 hid
    have : q2 = q := id_inj hq (hinv.2 q2 hq2) hmem hq2id
    exact hsel_sub (this ▸ hq2)
  · have hqa : q ∈ queries.filter (notSel sel) :=
      List.mem_filter.2 ⟨hmem, decide_eq_true hid⟩
    have havail_nd : (idsOf (queries.filter (notSel sel))).Nodup :=
      List.Nodup.sublist ((List.filter_sublist _).map Query.id) hq
    have hlen_le : (queries.filter (notSel sel)).length ≤ rem := by
      have h₁ : sel.length + (queries.filter (notSel sel)).length
          ≤ queries.length :=
        append_length_le hq hinv (fun _ hq' => List.mem_of_mem_filter hq')
          havail_nd
          (fun _ hq' => decide_eq_true_iff.1 (List.mem_filter.1 hq').2)
      omega
    have hpos : 0 < rem := by
      have : 0 < (queries.filter (notSel sel)).length :=
        List.length_pos.2 (List.ne_nil_of_mem hqa)
      omega
    have hnotempty : ¬((queries.filter (notSel sel)).isEmpty = true) := by
      rw [List.isEmpty_iff]
      exact List.ne_nil_of_mem hqa
    rw [stage3, if_pos hpos]
    dsimp only
    rw [if_neg hnotempty]
    refine List.mem_append_right _ ?_
    obtain ⟨hl, hsub⟩ := hs (queries.filter (notSel sel)) _ (Nat.min_le_right _ _)
    have hperm : List.Perm (samp (queries.filter (notSel sel))
        (min rem (queries.filter (notSel sel)).length))
        (queries.filter (notSel sel)) := by
      refine hsub.perm_of_length_le ?_
      rw [hl]
      exact Nat.le_of_eq (Nat.min_eq_right hlen_le).symm
    exact hperm.mem_iff.2 hqa

/-- Claim C4 counterexample: three queries with three distinct categories
and `target_size = 1` — the per-category loop takes
`max(1, 1 // 3) = 1` query from every category, so the returned sample has
3 elements, exceeding the target size. -/
theorem c4_counterexample :
    ((selectStratifiedSample takeSampler
        [⟨0, "x", "a", "Good", "High"⟩, ⟨1, "y", "b", "Good", "High"⟩,
          ⟨2, "z", "c", "Good", "High"⟩] 1).getD []).length = 3
    ∧ ¬ ((selectStratifiedSample takeSampler
        [⟨0, "x", "a", "Good", "High"⟩, ⟨1, "y", "b", "Good", "High"⟩,
          ⟨2, "z", "c", "Good", "High"⟩] 1).getD []).length ≤ 1 := by
  exact ⟨by decide, by decide⟩

/-- Claim C4 (amended): for every sampler obeying the `random.sample`
contract and every non-empty query list with pairwise-distinct ids,
`select_stratified_sample` returns a list in which no id appears twice and
whose length is at most `max(target_size, number of distinct categories)`;
the claimed `target_size` bound itself holds exactly when the number of
distinct categories does not exceed `target_size`. -/
theorem c4_sample_bounds (samp : Sampler) (queries : List Query) (size : ℕ)
    (hs : SamplerOK samp) (hq : (idsOf queries).Nodup) (hne : queries ≠ [])
    (hsz : 1 ≤ size) :
    (selectStratifiedSample samp queries size).isSome = true
    ∧ (idsOf ((selectStratifiedSample samp queries size).getD [])).Nodup
    ∧ ((selectStratifiedSample samp queries size).getD []).length
        ≤ max size (dedupFirst (queries.map Query.category)).length
    ∧ ((dedupFirst (queries.map Query.category)).length ≤ size →
        ((selectStratifiedSample samp queries size).getD []).length ≤ size) := by
  have hcatne : dedupFirst (queries.map Query.category) ≠ [] :=
    dedupFirst_ne_nil (fun h => hne (List.map_eq_nil.1 h))
  have hcne : ¬((dedupFirst (queries.map Query.category)).isEmpty = true) := by
    rw [List.isEmpty_iff]
    exact hcatne
  have hsel : selectStratifiedSample samp queries size
      = some (selectPipeline samp queries size
          (dedupFirst (queries.map Query.category))) := by
    rw [selectStratifiedSample]
    rw [if_neg hcne]
  rw [hsel]
  set cats := dedupFirst (queries.map Query.category) with hcats
  set spc := max 1 (size / cats.length) with hspc
  set sel₁ := stage1 samp spc queries cats with hsel₁
  set s2 := stage2 samp queries sel₁ (size - sel₁.length) with hs2def
  set sel₃ := stage3 samp queries s2.1 s2.2 with hsel₃
  have hpipe : selectPipeline samp queries size cats
      = sel₃.insertionSort (fun a b => a.id ≤ b.id) := rfl
  rw [hpipe]
  have hnil : SelInv queries [] :=
    ⟨List.nodup_nil, fun q h => absurd h (List.not_mem_nil q)⟩
  have hinv₁ : SelInv queries sel₁ := by
    rw [hsel₁, stage1]
    exact foldl_catStep_inv hs hq cats [] hnil
  have hinv₂ : SelInv queries s2.1 := by
    rw [hs2def]
    exact stage2_inv hs hq hinv₁
  have hinv₃ : SelInv queries sel₃ := by
    rw [hsel₃]
    exact stage3_inv hs hq hinv₂
  have hlen₁ : sel₁.length ≤ spc * cats.length := by
    rw [hsel₁, stage1]
    simpa using @foldl_catStep_length samp spc queries hs cats []
  have hsum₂ : s2.1.length + s2.2 = sel₁.length + (size - sel₁.length) := by
    rw [hs2def]
    exact stage2_sum hs
  have hlen₃ : sel₃.length ≤ s2.1.length + s2.2 := by
    rw [hsel₃]
    exact stage3_length hs
  have hperm : List.Perm (sel₃.insertionSort (fun a b => a.id ≤ b.id)) sel₃ :=
    List.perm_insertionSort _ _
  have hlen_eq : (sel₃.insertionSort (fun a b => a.id ≤ b.id)).length
      = sel₃.length := hperm.length_eq
  have hnodup : (idsOf (sel₃.insertionSort (fun a b => a.id ≤ b.id))).Nodup :=
    ((hperm.map Query.id).symm).nodup hinv₃.1
  have hLpos : 0 < cats.length := List.length_pos.2 hcatne
  have hspcb : spc * cats.length ≤ max size cats.length := by
    rw [hspc]
    by_cases hd : size / cats.length = 0
    · rw [hd]
      simpa using Nat.le_max_right size cats.length
    · have h1 : 1 ≤ size / cats.length := Nat.one_le_iff_ne_zero.2 hd
      rw [Nat.max_eq_right h1]
      exact le_trans (Nat.div_mul_le_self _ _) (Nat.le_max_left _ _)
  simp only [Option.getD_some, Option.isSome_some]
  refine ⟨trivial, hnodup, ?_, ?_⟩
  · rw [hlen_eq]
    have h1 : size ≤ max size cats.length := Nat.le_max_left _ _
    have h2 : sel₁.length ≤ max size cats.length := le_trans hlen₁ hspcb
    omega
  · intro hLsize
    rw [hlen_eq]
    have h1 : 1 ≤ size / cats.length := (Nat.one_le_div_iff hLpos).2 hLsize
    have h2 : spc = size / cats.length := by
      rw [hspc]
      exact Nat.max_eq_right h1
    have h3 : sel₁.length ≤ size := by
      rw [h2] at hlen₁
      exact le_trans hlen₁ (Nat.div_mul_le_self _ _)
    omega

/-- Claim C4 witness: the amended bounds applied to a concrete sampler
and a two-category, three-query dataset with target size 2. -/
theorem c4_witness :
    (selectStratifiedSample takeSampler
        [⟨0, "x", "a", "Good", "High"⟩, ⟨1, "y", "b", "Good", "High"⟩,
          ⟨2, "z", "a", "Good", "High"⟩] 2).isSome = true
    ∧ (idsOf ((selectStratifiedSample takeSampler
        [⟨0, "x", "a", "Good", "High"⟩, ⟨1, "y", "b", "Good", "High"⟩,
          ⟨2, "z", "a", "Good", "High"⟩] 2).getD [])).Nodup
    ∧ ((selectStratifiedSample takeSampler
        [⟨0, "x", "a", "Good", "High"⟩, ⟨1, "y", "b", "Good", "High"⟩,
          ⟨2, "z", "a", "Good", "High"⟩] 2).getD []).length
        ≤ max 2 (dedupFirst ([⟨0, "x", "a", "Good", "High"⟩,
            ⟨1, "y", "b", "Good", "High"⟩,
            ⟨2, "z", "a", "Good", "High"⟩].map Query.category)).length
    ∧ ((dedupFirst ([⟨0, "x", "a", "Good", "High"⟩,
          ⟨1, "y", "b", "Good", "High"⟩,
          ⟨2, "z", "a", "Good", "High"⟩].map Query.category)).length ≤ 2 →
        ((selectStratifiedSample takeSampler
          [⟨0, "x", "a", "Good", "High"⟩, ⟨1, "y", "b", "Good", "High"⟩,
            ⟨2, "z", "a", "Good", "High"⟩] 2).getD []).length ≤ 2) :=
  c4_sample_bounds takeSampler
    [⟨0, "x", "a", "Good", "High"⟩, ⟨1, "y", "b", "Good", "High"⟩,
      ⟨2, "z", "a", "Good", "High"⟩] 2 takeSampler_ok (by decide) (by decide)
    (by decide)

/-- Claim C9 counterexample: on the empty query list (where any
`target_size` is at least the number of queries) the code raises
`ZeroDivisionError` at `sample_size // len(categories)` instead of
returning the empty list sorted by id. -/
theorem c9_counterexample :
    selectStratifiedSample takeSampler [] 0 = none
    ∧ selectStratifiedSample takeSampler [] 0 ≠ some [] := by
  exact ⟨rfl, by decide⟩

/-- Claim C9 (amended): for every sampler obeying the `random.sample`
contract and every non-empty query list with pairwise-distinct ids, when
`target_size` is at least the number of queries,
`select_stratified_sample` returns a permutation of the full input sorted
in ascending order of id. -/
theorem c9_full_sample_sorted (samp : Sampler) (queries : List Query)
    (size : ℕ) (hs : SamplerOK samp) (hq : (idsOf queries).Nodup)
    (hne : queries ≠ []) (hsz : queries.length ≤ size) :
    (selectStratifiedSample samp queries size).isSome = true
    ∧ List.Perm ((selectStratifiedSample samp queries size).getD []) queries
    ∧ List.Pairwise (fun a b => a.id ≤ b.id)
        ((selectStratifiedSample samp queries size).getD []) := by
  have hcatne : dedupFirst (queries.map Query.category) ≠ [] :=
    dedupFirst_ne_nil (fun h => hne (List.map_eq_nil.1 h))
  have hcne : ¬((dedupFirst (queries.map Query.category)).isEmpty = true) := by
    rw [List.isEmpty_iff]
    exact hcatne
  have hsel : selectStratifiedSample samp queries size
      = some (selectPipeline samp queries size
          (dedupFirst (queries.map Query.category))) := by
    rw [selectStratifiedSample]
    rw [if_neg hcne]
  rw [hsel]
  set cats := dedupFirst (queries.map Query.category) with hcats
  set spc := max 1 (size / cats.length) with hspc
  set sel₁ := stage1 samp spc queries cats with hsel₁
  set s2 := stage2 samp queries sel₁ (size - sel₁.length) with hs2def
  set sel₃ := stage3 samp queries s2.1 s2.2 with hsel₃
  have hpipe : selectPipeline samp queries size cats
      = sel₃.insertionSort (fun a b => a.id ≤ b.id) := rfl
  rw [hpipe]
  have hnil : SelInv queries [] :=
    ⟨List.nodup_nil, fun q h => absurd h (List.not_mem_nil q)⟩
  have hinv₁ : SelInv queries sel₁ := by
    rw [hsel₁, stage1]
    exact foldl_catStep_inv hs hq cats [] hnil
  have hinv₂ : SelInv queries s2.1 := by
    rw [hs2def]
    exact stage2_inv hs hq hinv₁
  have hinv₃ : SelInv queries sel₃ := by
    rw [hsel₃]
    exact stage3_inv hs hq hinv₂
  have hsum₂ : s2.1.length + s2.2 = sel₁.length + (size - sel₁.length) := by
    rw [hs2def]
    exact stage2_sum hs
  have hlen₁_le : sel₁.length ≤ queries.length :=
    (selInv_subperm hq hinv₁).length_le
  have htot : queries.length ≤ s2.1.length + s2.2 := by omega
  have hcomplete : ∀ q ∈ queries, q ∈ sel₃ := by
    rw [hsel₃]
    exact stage3_complete hs hq hinv₂ htot
  have hq_nodup : queries.Nodup := List.Nodup.of_map Query.id hq
  have hperm3 : List.Perm sel₃ queries :=
    (selInv_subperm hq hinv₃).antisymm
      (hq_nodup.subperm (fun q hq' => hcomplete q hq'))
  have hms : List.Perm (sel₃.insertionSort (fun a b => a.id ≤ b.id)) sel₃ :=
    List.perm_insertionSort _ _
  refine ⟨by rfl, hms.trans hperm3, ?_⟩
  haveI : IsTotal Query (fun a b => a.id ≤ b.id) :=
    ⟨fun a b => Nat.le_total a.id b.id⟩
  haveI : IsTrans Query (fun a b => a.id ≤ b.id) :=
    ⟨fun _ _ _ hab hbc => Nat.le_trans hab hbc⟩
  exact List.sorted_insertionSort (fun a b => a.id ≤ b.id) sel₃

/-- Claim C9 witness: the amended statement applied to a concrete
three-query dataset with target size 5. -/
theorem c9_witness :
    (selectStratifiedSample takeSampler
        [⟨2, "x", "a", "Poorly-formed", "Low"⟩, ⟨1, "y", "a", "Ambiguous", "High"⟩,
          ⟨0, "z", "b", "Good", "Very Low"⟩] 5).isSome = true
    ∧ List.Perm ((selectStratifiedSample takeSampler
        [⟨2, "x", "a", "Poorly-formed", "Low"⟩, ⟨1, "y", "a", "Ambiguous", "High"⟩,
          ⟨0, "z", "b", "Good", "Very Low"⟩] 5).getD [])
        [⟨2, "x", "a", "Poorly-formed", "Low"⟩, ⟨1, "y", "a", "Ambiguous", "High"⟩,
          ⟨0, "z", "b", "Good", "Very Low"⟩]
    ∧ List.Pairwise (fun a b => a.id ≤ b.id)
        ((selectStratifiedSample takeSampler
          [⟨2, "x", "a", "Poorly-formed", "Low"⟩, ⟨1, "y", "a", "Ambiguous", "High"⟩,
            ⟨0, "z", "b", "Good", "Very Low"⟩] 5).getD []) :=
  c9_full_sample_sorted takeSampler
    [⟨2, "x", "a", "Poorly-formed", "Low"⟩, ⟨1, "y", "a", "Ambiguous", "High"⟩,
      ⟨0, "z", "b", "Good", "Very Low"⟩] 5 takeSampler_ok (by decide) (by decide)
    (by decide)

end GAMvsGPT
